import Mathlib

/-!
Verification of the Rough Mount Fuji landscape simulation
(`gpmap/simulate/fuji.py`, class `MountFujiSimulation`).

Shallow embedding: floats are modelled as rationals, numpy arrays as lists,
the object state as an explicit structure, and the property getters/setters
as pure functions on that state.  The numpy random sampler is passed in as an
explicit oracle `sample low high n` standing for
`np.random.uniform(low, high, size=n)`.
-/

namespace GPMap

/-- Modelled from the spec: `gpmap.utils.hamming_distance` is not under `src/`
(only its caller `MountFujiSimulation.hamming` is).  Per the spec it counts the
positions at which two equal-length strings differ. -/
def hamming_distance (s t : List Char) : ℕ :=
  ((s.zip t).filter (fun p => p.1 ≠ p.2)).length

/-- Modelled from the spec: `gpmap.utils.mutations_to_genotypes` is not under
`src/` (only its caller is).  Per the spec it expands the per-position
mutation alphabets into every genotype obtained by independently varying each
position over its alphabet, in a fixed repeatable order.  The `wildtype`
argument is kept for signature fidelity with the Python call site. -/
def mutations_to_genotypes (wildtype : List Char) (mutations : List (List Char)) :
    List (List Char) :=
  match mutations with
  | [] => [[]]
  | a :: rest => a.flatMap (fun c => (mutations_to_genotypes wildtype rest).map (fun g => c :: g))

/-- The Python value passed as the `range` argument of `set_roughness`:
`None`, a tuple of reals (of any arity), a non-tuple indexable sequence of
reals (e.g. a Python list), or a non-indexable scalar. -/
inductive RangeArg where
  | noneArg : RangeArg
  | tup : List ℚ → RangeArg
  | seq : List ℚ → RangeArg
  | scalar : ℚ → RangeArg

/-- State of a `MountFujiSimulation` object.  `roughnessCache` is the
`_roughness` attribute (`none` = attribute absent), `hammingCache` is the
`_hamming` attribute, `phenotypes` is the phenotype array stored in the
underlying `GenotypePhenotypeMap`. -/
structure MountFujiSimulation where
  wildtype : List Char
  genotypes : List (List Char)
  field_strength : ℚ
  roughnessCache : Option (List ℚ)
  hammingCache : Option (List ℕ)
  phenotypes : List ℚ

namespace MountFujiSimulation

/-- `self.n`: the number of genotypes (provided by the parent map). -/
def n (m : MountFujiSimulation) : ℕ := m.genotypes.length

/-- The `roughness` property: returns `_roughness` if set, otherwise a fresh
all-zero array of length `n` (it does not cache). -/
def roughness (m : MountFujiSimulation) : List ℚ :=
  match m.roughnessCache with
  | some r => r
  | none => List.replicate m.n 0

/-- The value read by the `hamming` property: the cached `_hamming` array if
present, otherwise `hamming_distance(wildtype, g)` for each genotype `g`.
(The caching side effect of the Python property is modelled explicitly in
`build`, the only internal reader.) -/
def hamming (m : MountFujiSimulation) : List ℕ :=
  match m.hammingCache with
  | some hd => hd
  | none => m.genotypes.map (hamming_distance m.wildtype)

/-- `build()`: `self.phenotypes = self.roughness - self.field_strength * self.hamming`.
Reading `self.hamming` caches the distance vector as a side effect. -/
def build (m : MountFujiSimulation) : MountFujiSimulation :=
  let hd := m.hamming
  { m with
    hammingCache := some hd,
    phenotypes :=
      List.zipWith (fun (r : ℚ) (h : ℕ) => r - m.field_strength * (h : ℚ)) m.roughness hd }

/-- `__init__(wildtype, mutations, field_strength=1, range=(0,1))`: enumerates
the genotypes, allocates the phenotype array (`np.empty`, contents irrelevant
because `build` overwrites it in full), stores the field strength and builds.
The `range` parameter is accepted but never read, exactly as in the source. -/
def init (wildtype : List Char) (mutations : List (List Char)) (field_strength : ℚ)
    (range : ℚ × ℚ) : MountFujiSimulation :=
  let genotypes := mutations_to_genotypes wildtype mutations
  build
    { wildtype := wildtype
      genotypes := genotypes
      field_strength := field_strength
      roughnessCache := none
      hammingCache := none
      phenotypes := List.replicate genotypes.length 0 }

/-- `from_length(length, field_strength=1)`: binary alphabet `["0","1"]` at
each of `length` positions, wildtype joined from the first letter of each
alphabet; constructor defaults apply (`range=(0,1)`). -/
def from_length (length : ℕ) (field_strength : ℚ) : MountFujiSimulation :=
  let mutations := (List.range length).map (fun _ => ['0', '1'])
  let wildtype := mutations.map (fun mv => mv.headD '0')
  init wildtype mutations field_strength (0, 1)

/-- The `field_strength` setter: stores the new value and rebuilds. -/
def set_field_strength (m : MountFujiSimulation) (c : ℚ) : MountFujiSimulation :=
  build { m with field_strength := c }

/-- `set_roughness(range=None)`.  The source's type check
`if type(range) is not tuple: Exception("range must be a tuple pair")`
constructs an exception object without raising it, so it has no effect and
every branch falls through to `np.random.uniform(range[0], range[1], size=n)`:
any indexable `range` with at least two elements is sampled from (tuple or
not, any arity, `low > high` included); shorter sequences raise `IndexError`
and non-indexable scalars raise `TypeError` while evaluating the arguments,
before `_roughness` is assigned and before `build` runs.  The result pairs
the raised error (if any) with the object state after the call. -/
def set_roughness (sample : ℚ → ℚ → ℕ → List ℚ) (m : MountFujiSimulation)
    (range : RangeArg) : Option String × MountFujiSimulation :=
  match range with
  | RangeArg.noneArg => (none, build { m with roughnessCache := some (List.replicate m.n 0) })
  | RangeArg.tup (low :: high :: _) =>
      (none, build { m with roughnessCache := some (sample low high m.n) })
  | RangeArg.seq (low :: high :: _) =>
      (none, build { m with roughnessCache := some (sample low high m.n) })
  | RangeArg.tup _ => (some "IndexError: tuple index out of range", m)
  | RangeArg.seq _ => (some "IndexError: list index out of range", m)
  | RangeArg.scalar _ => (some "TypeError: object is not subscriptable", m)

/-- A small concrete landscape state whose hamming cache is still unset, used
to instantiate facts about the lazily computed distance vector. -/
def freshExample : MountFujiSimulation :=
  { wildtype := ['0']
    genotypes := [['0'], ['1']]
    field_strength := 1
    roughnessCache := none
    hammingCache := none
    phenotypes := [] }

/-- Well-formedness of a reachable state: any cached roughness array has
length `n`, and any cached hamming array is exactly the computed distance
vector (the only value the source ever stores in `_hamming`). -/
def wf (m : MountFujiSimulation) : Prop :=
  (∀ r ∈ m.roughnessCache, r.length = m.n) ∧
  (∀ hd ∈ m.hammingCache, hd = m.genotypes.map (hamming_distance m.wildtype))

/-- The central invariant of the spec:
`phenotype[i] == roughness[i] - fieldStrength * distance[i]` for every
`i` in `[0, N)`, with the phenotype array of length `N`. -/
def fuji_invariant (m : MountFujiSimulation) : Prop :=
  m.phenotypes.length = m.n ∧
  ∀ i < m.n,
    m.phenotypes.getD i 0 = m.roughness.getD i 0 - m.field_strength * (m.hamming.getD i 0 : ℚ)

end MountFujiSimulation

/-! ### List index helpers -/

lemma getD_zipWith {α β γ : Type} (f : α → β → γ) (da : α) (db : β) (dc : γ)
    (as : List α) (bs : List β) (i : ℕ) (ha : i < as.length) (hb : i < bs.length) :
    (List.zipWith f as bs).getD i dc = f (as.getD i da) (bs.getD i db) := by
  induction as generalizing bs i with
  | nil => exact absurd ha (by simp)
  | cons a as ih =>
    cases bs with
    | nil => exact absurd hb (by simp)
    | cons b bs =>
      cases i with
      | zero => rfl
      | succ i => exact ih bs i (Nat.lt_of_succ_lt_succ ha) (Nat.lt_of_succ_lt_succ hb)

lemma getD_map {α β : Type} (f : α → β) (da : α) (db : β)
    (l : List α) (i : ℕ) (h : i < l.length) :
    (l.map f).getD i db = f (l.getD i da) := by
  induction l generalizing i with
  | nil => exact absurd h (by simp)
  | cons a l ih =>
    cases i with
    | zero => rfl
    | succ i => exact ih i (Nat.lt_of_succ_lt_succ h)

lemma getD_replicate' {α : Type} (d a : α) (k i : ℕ) (h : i < k) :
    (List.replicate k a).getD i d = a := by
  induction k generalizing i with
  | zero => exact absurd h (by simp)
  | succ k ih =>
    cases i with
    | zero => rfl
    | succ i => exact ih i (Nat.lt_of_succ_lt_succ h)

namespace MountFujiSimulation

/-! ### Basic facts about `build` and the state components -/

lemma build_wildtype (m : MountFujiSimulation) : (m.build).wildtype = m.wildtype := rfl

lemma build_genotypes (m : MountFujiSimulation) : (m.build).genotypes = m.genotypes := rfl

lemma build_field_strength (m : MountFujiSimulation) :
    (m.build).field_strength = m.field_strength := rfl

lemma build_n (m : MountFujiSimulation) : (m.build).n = m.n := rfl

lemma build_roughness (m : MountFujiSimulation) : (m.build).roughness = m.roughness := rfl

lemma build_hamming (m : MountFujiSimulation) : (m.build).hamming = m.hamming := rfl

lemma build_phenotypes (m : MountFujiSimulation) :
    (m.build).phenotypes
      = List.zipWith (fun (r : ℚ) (h : ℕ) => r - m.field_strength * (h : ℚ))
          m.roughness m.hamming := rfl

lemma length_roughness (m : MountFujiSimulation)
    (h : ∀ r ∈ m.roughnessCache, r.length = m.n) : m.roughness.length = m.n := by
  cases hc : m.roughnessCache with
  | none => simp [roughness, hc]
  | some r => simpa [roughness, hc] using h r (by simp [hc])

lemma length_hamming (m : MountFujiSimulation)
    (h : ∀ hd ∈ m.hammingCache, hd = m.genotypes.map (hamming_distance m.wildtype)) :
    m.hamming.length = m.n := by
  cases hc : m.hammingCache with
  | none => simp [hamming, hc, n]
  | some hd =>
    have := h hd (by simp [hc])
    simp [hamming, hc, this, n]

/-- `build` establishes the central invariant on every well-formed state. -/
lemma build_fuji_invariant (m : MountFujiSimulation) (hwf : m.wf) :
    (m.build).fuji_invariant := by
  have hr : m.roughness.length = m.n := m.length_roughness hwf.1
  have hh : m.hamming.length = m.n := m.length_hamming hwf.2
  constructor
  · simp [build_phenotypes, build_n, hr, hh]
  · intro i hi
    have hi' : i < m.n := by simpa [build_n] using hi
    rw [build_phenotypes, build_roughness, build_hamming, build_field_strength]
    exact getD_zipWith _ 0 0 0 m.roughness m.hamming i (by omega) (by omega)

/-- `build` preserves well-formedness. -/
lemma wf_build (m : MountFujiSimulation) (hwf : m.wf) : (m.build).wf := by
  constructor
  · intro r hr
    exact hwf.1 r hr
  · intro hd hhd
    simp only [build] at hhd
    cases hhd
    cases hc : m.hammingCache with
    | none => simp [build_genotypes, build_wildtype, hamming, hc]
    | some hd' =>
      have := hwf.2 hd' (by simp [hc])
      simp [build_genotypes, build_wildtype, hamming, hc, this]

lemma wf_init (w : List Char) (muts : List (List Char)) (c : ℚ) (rng : ℚ × ℚ) :
    (init w muts c rng).wf := by
  refine wf_build _ ⟨?_, ?_⟩ <;> intro x hx <;> simp at hx

lemma wf_from_length (L : ℕ) (c : ℚ) : (from_length L c).wf :=
  wf_init _ _ _ (0, 1)

/-- Under the cache-coherence half of `wf` the hamming vector is the computed
distance vector, cached or not. -/
lemma hamming_eq (m : MountFujiSimulation)
    (h : ∀ hd ∈ m.hammingCache, hd = m.genotypes.map (hamming_distance m.wildtype)) :
    m.hamming = m.genotypes.map (hamming_distance m.wildtype) := by
  cases hc : m.hammingCache with
  | none => simp [hamming, hc]
  | some hd => simpa [hamming, hc] using h hd (by simp [hc])

lemma init_fuji_invariant (w : List Char) (muts : List (List Char)) (c : ℚ) (rng : ℚ × ℚ) :
    (init w muts c rng).fuji_invariant :=
  build_fuji_invariant _ ⟨fun r hr => by simp at hr, fun hd hhd => by simp at hhd⟩

lemma init_roughness (w : List Char) (muts : List (List Char)) (c : ℚ) (rng : ℚ × ℚ) :
    (init w muts c rng).roughness = List.replicate (init w muts c rng).n 0 := rfl

lemma init_default_phenotypes (w : List Char) (muts : List (List Char)) (c : ℚ) (rng : ℚ × ℚ) :
    ∀ i < (init w muts c rng).n,
      (init w muts c rng).phenotypes.getD i 0
        = -((init w muts c rng).field_strength
            * ((init w muts c rng).hamming.getD i 0 : ℚ)) := by
  intro i hi
  have hinv := init_fuji_invariant w muts c rng
  rw [hinv.2 i hi, init_roughness, getD_replicate' 0 0 _ i hi, zero_sub]

end MountFujiSimulation

/-- Hamming distance between equal-length strings vanishes exactly on equal
strings. -/
lemma hamming_distance_eq_zero_iff (s t : List Char) (h : s.length = t.length) :
    hamming_distance s t = 0 ↔ s = t := by
  induction s generalizing t with
  | nil =>
    cases t with
    | nil => simp [hamming_distance]
    | cons b t => simp at h
  | cons a s ih =>
    cases t with
    | nil => simp at h
    | cons b t =>
      by_cases hab : a = b
      · subst hab
        have ht := ih t (by simpa using h)
        simpa [hamming_distance, List.zip_cons_cons, List.filter_cons] using ht
      · simp [hamming_distance, List.zip_cons_cons, List.filter_cons, hab]

open MountFujiSimulation

/-! ### Claim theorems -/

/-- Claim C1: for every constructed landscape and every index `i` in `[0, N)`,
`phenotype[i] = roughness[i] - fieldStrength * hamming[i]` holds immediately
after any mutator returns: construction, a field-strength write, or a
`set_roughness` call that returns (does not raise). -/
theorem fuji_C1 (w : List Char) (muts : List (List Char)) (c c' : ℚ) (rng : ℚ × ℚ)
    (m : MountFujiSimulation) (sample : ℚ → ℚ → ℕ → List ℚ) (arg : RangeArg)
    (hwf : m.wf) (hs : ∀ low high k, (sample low high k).length = k) :
    (init w muts c rng).fuji_invariant ∧
    (m.set_field_strength c').fuji_invariant ∧
    ((set_roughness sample m arg).1 = none → (set_roughness sample m arg).2.fuji_invariant) := by
  refine ⟨init_fuji_invariant w muts c rng, ?_, ?_⟩
  · exact build_fuji_invariant _ ⟨hwf.1, hwf.2⟩
  · cases arg with
    | noneArg =>
      intro _
      refine build_fuji_invariant _ ⟨?_, hwf.2⟩
      intro r hr
      rw [show r = List.replicate m.n 0 from (Option.some_inj.mp hr).symm]
      simp [n]
    | tup t =>
      cases t with
      | nil => intro h; simp [set_roughness] at h
      | cons low rest =>
        cases rest with
        | nil => intro h; simp [set_roughness] at h
        | cons high rest' =>
          intro _
          refine build_fuji_invariant _ ⟨?_, hwf.2⟩
          intro r hr
          rw [show r = sample low high m.n from (Option.some_inj.mp hr).symm]
          simp [n, hs]
    | seq t =>
      cases t with
      | nil => intro h; simp [set_roughness] at h
      | cons low rest =>
        cases rest with
        | nil => intro h; simp [set_roughness] at h
        | cons high rest' =>
          intro _
          refine build_fuji_invariant _ ⟨?_, hwf.2⟩
          intro r hr
          rw [show r = sample low high m.n from (Option.some_inj.mp hr).symm]
          simp [n, hs]
    | scalar x => intro h; simp [set_roughness] at h

/-- Witness for C1 at a concrete landscape, sampler and roughness range. -/
theorem fuji_C1_witness :
    (init ['0'] [['0', '1']] 1 (0, 1)).fuji_invariant ∧
    ((from_length 2 1).set_field_strength 3).fuji_invariant ∧
    ((set_roughness (fun low _ k => List.replicate k low) (from_length 2 1)
        (RangeArg.tup [5, 7])).1 = none →
      (set_roughness (fun low _ k => List.replicate k low) (from_length 2 1)
        (RangeArg.tup [5, 7])).2.fuji_invariant) :=
  fuji_C1 ['0'] [['0', '1']] 1 3 (0, 1) (from_length 2 1)
    (fun low _ k => List.replicate k low) (RangeArg.tup [5, 7])
    (wf_from_length 2 1) (fun _ _ _ => by simp)

/-- Claim C5: writing `field_strength` recomputes only the phenotype vector;
the hamming-distance vector and the roughness vector read the same values
after the write as before. -/
theorem fuji_C5 (m : MountFujiSimulation) (c : ℚ) :
    (m.set_field_strength c).hamming = m.hamming ∧
    (m.set_field_strength c).roughness = m.roughness :=
  ⟨rfl, rfl⟩

/-- Claim C6: a freshly constructed landscape (no `set_roughness` call) has an
all-zero roughness vector and `phenotype[i] = -fieldStrength * distance[i]`. -/
theorem fuji_C6 (w : List Char) (muts : List (List Char)) (c : ℚ) (rng : ℚ × ℚ) :
    (init w muts c rng).roughness = List.replicate (init w muts c rng).n 0 ∧
    (init w muts c rng).phenotypes.length = (init w muts c rng).n ∧
    ∀ i < (init w muts c rng).n,
      (init w muts c rng).phenotypes.getD i 0
        = -((init w muts c rng).field_strength
            * ((init w muts c rng).hamming.getD i 0 : ℚ)) :=
  ⟨init_roughness w muts c rng, (init_fuji_invariant w muts c rng).1,
    init_default_phenotypes w muts c rng⟩

/-- Witness for C6: one-site binary landscape, mutant genotype at index 1. -/
theorem fuji_C6_witness :
    (init ['0'] [['0', '1']] 1 (0, 1)).phenotypes.getD 1 0
      = -((init ['0'] [['0', '1']] 1 (0, 1)).field_strength
          * ((init ['0'] [['0', '1']] 1 (0, 1)).hamming.getD 1 0 : ℚ)) :=
  (fuji_C6 ['0'] [['0', '1']] 1 (0, 1)).2.2 1 (by decide)

/-- Claim C10: the constructor's `range` argument is never read — any two
values for it give identical landscapes — and the constructed landscape has
all-zero roughness and `phenotype[i] = -fieldStrength * distance[i]`. -/
theorem fuji_C10 (w : List Char) (muts : List (List Char)) (c : ℚ) (r₁ r₂ : ℚ × ℚ) :
    init w muts c r₁ = init w muts c r₂ ∧
    (init w muts c r₁).roughness = List.replicate (init w muts c r₁).n 0 ∧
    ∀ i < (init w muts c r₁).n,
      (init w muts c r₁).phenotypes.getD i 0
        = -((init w muts c r₁).field_strength
            * ((init w muts c r₁).hamming.getD i 0 : ℚ)) :=
  ⟨rfl, init_roughness w muts c r₁, init_default_phenotypes w muts c r₁⟩

/-- Claim C2 (refuted by evaluation): `set_roughness` with a malformed range —
a three-element tuple, a pair with `low > high`, or a non-tuple two-element
sequence — returns without raising any error: the source's validation
constructs an exception object but never raises it, and neither arity nor
ordering is checked before sampling. -/
theorem fuji_C2_eval (sample : ℚ → ℚ → ℕ → List ℚ) :
    (set_roughness sample (from_length 2 1) (RangeArg.tup [0, 1, 2])).1 = none ∧
    (set_roughness sample (from_length 2 1) (RangeArg.tup [2, 1])).1 = none ∧
    (set_roughness sample (from_length 2 1) (RangeArg.seq [0, 1])).1 = none :=
  ⟨rfl, rfl, rfl⟩

/-- Claim C3: hamming distance between equal-length strings is zero exactly on
equal strings, and the computed distance vector satisfies `distance[i] = 0`
exactly when `genotype[i]` equals the reference. -/
theorem fuji_C3 :
    (∀ s t : List Char, s.length = t.length → (hamming_distance s t = 0 ↔ s = t)) ∧
    (∀ m : MountFujiSimulation, m.hammingCache = none →
      (∀ g ∈ m.genotypes, g.length = m.wildtype.length) →
      ∀ i < m.n, (m.hamming.getD i 0 = 0 ↔ m.genotypes.getD i [] = m.wildtype)) := by
  refine ⟨hamming_distance_eq_zero_iff, ?_⟩
  intro m hc hlen i hi
  have hmap : m.hamming = m.genotypes.map (hamming_distance m.wildtype) := by
    simp [MountFujiSimulation.hamming, hc]
  have hg : m.genotypes.getD i [] ∈ m.genotypes := by
    rw [List.getD_eq_getElem m.genotypes [] hi]
    exact List.getElem_mem hi
  have hlg : m.wildtype.length = (m.genotypes.getD i []).length := (hlen _ hg).symm
  rw [hmap, getD_map (hamming_distance m.wildtype) [] 0 m.genotypes i hi,
    hamming_distance_eq_zero_iff _ _ hlg]
  exact eq_comm

/-- Witness for C3: concrete strings, and a concrete uncached landscape state. -/
theorem fuji_C3_witness :
    (hamming_distance ['0', '1'] ['0', '0'] = 0 ↔ (['0', '1'] : List Char) = ['0', '0']) ∧
    (freshExample.hamming.getD 1 0 = 0 ↔
      freshExample.genotypes.getD 1 [] = freshExample.wildtype) :=
  ⟨fuji_C3.1 ['0', '1'] ['0', '0'] (by decide),
    fuji_C3.2 freshExample rfl (by decide) 1 (by decide)⟩

/-- Claim C4: `set_roughness(None)` resets the roughness vector to all zeros
and rebuilds the phenotype vector to match, from any well-formed prior
state. -/
theorem fuji_C4 (sample : ℚ → ℚ → ℕ → List ℚ) (m : MountFujiSimulation) (hwf : m.wf) :
    (set_roughness sample m RangeArg.noneArg).1 = none ∧
    (set_roughness sample m RangeArg.noneArg).2.roughness = List.replicate m.n 0 ∧
    (set_roughness sample m RangeArg.noneArg).2.phenotypes.length = m.n ∧
    ∀ i < m.n,
      (set_roughness sample m RangeArg.noneArg).2.phenotypes.getD i 0
        = -((set_roughness sample m RangeArg.noneArg).2.field_strength
            * ((set_roughness sample m RangeArg.noneArg).2.hamming.getD i 0 : ℚ)) := by
  have hwf' :
      ({ m with roughnessCache := some (List.replicate m.n 0) } : MountFujiSimulation).wf := by
    refine ⟨?_, hwf.2⟩
    intro r hr
    rw [show r = List.replicate m.n 0 from (Option.some_inj.mp hr).symm]
    simp [MountFujiSimulation.n]
  have hinv := build_fuji_invariant _ hwf'
  refine ⟨rfl, rfl, hinv.1, fun i hi => ?_⟩
  have h2 := hinv.2 i hi
  rw [show (MountFujiSimulation.build
        { m with roughnessCache := some (List.replicate m.n 0) }).roughness
        = List.replicate m.n 0 from rfl,
    getD_replicate' 0 0 m.n i hi, zero_sub] at h2
  exact h2

/-- Witness for C4 on a concrete landscape that holds a non-zero roughness
(set earlier from the range `(5, 7)` with a sampler returning constant 5). -/
theorem fuji_C4_witness :
    (set_roughness (fun low _ k => List.replicate k low)
        ((set_roughness (fun low _ k => List.replicate k low) (from_length 2 1)
          (RangeArg.tup [5, 7])).2)
        RangeArg.noneArg).1 = none ∧
    (set_roughness (fun low _ k => List.replicate k low)
        ((set_roughness (fun low _ k => List.replicate k low) (from_length 2 1)
          (RangeArg.tup [5, 7])).2)
        RangeArg.noneArg).2.roughness
      = List.replicate ((set_roughness (fun low _ k => List.replicate k low) (from_length 2 1)
          (RangeArg.tup [5, 7])).2).n 0 :=
  have hwf : ((set_roughness (fun low _ k => List.replicate k low) (from_length 2 1)
      (RangeArg.tup [5, 7])).2).wf :=
    wf_build _ ⟨fun r hr => by
        rw [show r = List.replicate (from_length 2 1).n 5 from (Option.some_inj.mp hr).symm]
        decide,
      (wf_from_length 2 1).2⟩
  ⟨(fuji_C4 (fun low _ k => List.replicate k low) _ hwf).1,
    (fuji_C4 (fun low _ k => List.replicate k low) _ hwf).2.1⟩

/-- Claim C8: changing the field strength to `c₂` on a landscape with the same
genotype data and the same roughness as a directly constructed landscape with
field strength `c₂` yields the same phenotype vector. -/
theorem fuji_C8 (w : List Char) (muts : List (List Char)) (c₂ : ℚ) (rng : ℚ × ℚ)
    (m : MountFujiSimulation) (hwf : m.wf)
    (hw : m.wildtype = w) (hg : m.genotypes = mutations_to_genotypes w muts)
    (hr : m.roughness = (init w muts c₂ rng).roughness) :
    (m.set_field_strength c₂).phenotypes = (init w muts c₂ rng).phenotypes := by
  have h1 : (m.set_field_strength c₂).phenotypes
      = List.zipWith (fun (r : ℚ) (h : ℕ) => r - c₂ * (h : ℚ)) m.roughness m.hamming := rfl
  have h2 : (init w muts c₂ rng).phenotypes
      = List.zipWith (fun (r : ℚ) (h : ℕ) => r - c₂ * (h : ℚ))
          (init w muts c₂ rng).roughness
          ((mutations_to_genotypes w muts).map (hamming_distance w)) := rfl
  rw [h1, h2, hr, hamming_eq m hwf.2, hw, hg]

/-- Witness for C8: constructed with field strength 5, then set to 2, matches
direct construction with field strength 2. -/
theorem fuji_C8_witness :
    ((init ['0'] [['0', '1']] 5 (0, 1)).set_field_strength 2).phenotypes
      = (init ['0'] [['0', '1']] 2 (0, 1)).phenotypes :=
  fuji_C8 ['0'] [['0', '1']] 2 (0, 1) (init ['0'] [['0', '1']] 5 (0, 1))
    (wf_init ['0'] [['0', '1']] 5 (0, 1)) rfl rfl rfl

/-- Claim C9: whenever `set_roughness` raises, the object — in particular its
phenotype vector — is left exactly as it was before the call, and the error is
reported to the caller. -/
theorem fuji_C9 (sample : ℚ → ℚ → ℕ → List ℚ) (m : MountFujiSimulation) (arg : RangeArg)
    (h : ((set_roughness sample m arg).1).isSome = true) :
    (set_roughness sample m arg).2 = m ∧
    (set_roughness sample m arg).2.phenotypes = m.phenotypes := by
  cases arg with
  | noneArg => simp [set_roughness] at h
  | tup t =>
    cases t with
    | nil => exact ⟨rfl, rfl⟩
    | cons low rest =>
      cases rest with
      | nil => exact ⟨rfl, rfl⟩
      | cons high rest' => simp [set_roughness] at h
  | seq t =>
    cases t with
    | nil => exact ⟨rfl, rfl⟩
    | cons low rest =>
      cases rest with
      | nil => exact ⟨rfl, rfl⟩
      | cons high rest' => simp [set_roughness] at h
  | scalar x => exact ⟨rfl, rfl⟩

/-- Witness for C9: the empty tuple raises and leaves the state untouched. -/
theorem fuji_C9_witness :
    ((set_roughness (fun low _ k => List.replicate k low) (from_length 1 1)
        (RangeArg.tup [])).1).isSome = true ∧
    (set_roughness (fun low _ k => List.replicate k low) (from_length 1 1)
        (RangeArg.tup [])).2 = from_length 1 1 :=
  ⟨rfl, (fuji_C9 (fun low _ k => List.replicate k low) (from_length 1 1)
    (RangeArg.tup []) rfl).1⟩

/-- Claim C7: `from_length` uses the binary alphabet at every position and the
all-zero string as reference; `from_length 4 2` has reference `"0000"`,
16 genotypes, and phenotype `-8` on genotype `"1111"`. -/
theorem fuji_C7 :
    (∀ (L : ℕ) (c : ℚ),
        from_length L c = init (List.replicate L '0') (List.replicate L ['0', '1']) c (0, 1)) ∧
    (from_length 4 2).wildtype = ['0', '0', '0', '0'] ∧
    (from_length 4 2).n = 16 ∧
    (['1', '1', '1', '1'] : List Char) ∈ (from_length 4 2).genotypes ∧
    (∀ i < (from_length 4 2).n,
        (from_length 4 2).genotypes.getD i [] = ['1', '1', '1', '1'] →
        (from_length 4 2).phenotypes.getD i 0 = -8) := by
  have hL : ∀ (L : ℕ) (c : ℚ),
      from_length L c = init (List.replicate L '0') (List.replicate L ['0', '1']) c (0, 1) := by
    intro L c
    have h1 : (List.range L).map (fun _ => (['0', '1'] : List Char))
        = List.replicate L ['0', '1'] := by simp
    have h2 : (List.replicate L (['0', '1'] : List Char)).map (fun mv => mv.headD '0')
        = List.replicate L '0' := by simp
    simp only [from_length]
    rw [h1, h2]
  refine ⟨hL, by decide, by decide, by decide, ?_⟩
  intro i hi hgi
  rw [hL 4 2] at hi hgi ⊢
  have hig : i < (mutations_to_genotypes (List.replicate 4 '0')
      (List.replicate 4 ['0', '1'])).length := hi
  rw [init_default_phenotypes (List.replicate 4 '0') (List.replicate 4 ['0', '1']) 2 (0, 1) i hi]
  have hham :
      (init (List.replicate 4 '0') (List.replicate 4 ['0', '1']) 2 (0, 1)).hamming.getD i 0
        = hamming_distance (List.replicate 4 '0')
            ((mutations_to_genotypes (List.replicate 4 '0')
              (List.replicate 4 ['0', '1'])).getD i []) :=
    getD_map (hamming_distance (List.replicate 4 '0')) [] 0 _ i hig
  have hgi' : (mutations_to_genotypes (List.replicate 4 '0')
      (List.replicate 4 ['0', '1'])).getD i [] = ['1', '1', '1', '1'] := hgi
  rw [hham, hgi',
    show (init (List.replicate 4 '0') (List.replicate 4 ['0', '1']) 2 (0, 1)).field_strength
      = 2 from rfl,
    show hamming_distance (List.replicate 4 '0') ['1', '1', '1', '1'] = 4 from by decide]
  norm_num

/-- Witness for C7: genotype `"1111"` sits at index 15 with phenotype `-8`. -/
theorem fuji_C7_witness :
    (from_length 4 2).genotypes.getD 15 [] = ['1', '1', '1', '1'] ∧
    (from_length 4 2).phenotypes.getD 15 0 = -8 :=
  ⟨by decide, fuji_C7.2.2.2.2 15 (by decide) (by decide)⟩

/-- Witness for C10 at a concrete landscape and two distinct range values. -/
theorem fuji_C10_witness :
    init ['0', '0'] [['0', '1'], ['0', '1']] 2 (0, 1)
        = init ['0', '0'] [['0', '1'], ['0', '1']] 2 (3, 9) ∧
    (init ['0', '0'] [['0', '1'], ['0', '1']] 2 (0, 1)).phenotypes.getD 3 0
      = -((init ['0', '0'] [['0', '1'], ['0', '1']] 2 (0, 1)).field_strength
          * ((init ['0', '0'] [['0', '1'], ['0', '1']] 2 (0, 1)).hamming.getD 3 0 : ℚ)) :=
  ⟨(fuji_C10 ['0', '0'] [['0', '1'], ['0', '1']] 2 (0, 1) (3, 9)).1,
    (fuji_C10 ['0', '0'] [['0', '1'], ['0', '1']] 2 (0, 1) (3, 9)).2.2 3 (by decide)⟩

end GPMap
